import Mathlib

/-!
Shallow embedding of the wave-configuration resolution and transition-aggregation
engine of the `wave_visualizer` package (repository `goldman_cluster_vis`).

Embedded source files:
* `wave_visualizer/data_prep/wave_parser.py` — `WaveConfigParser.parse_wave_config`,
  `WaveConfigParser.validate_wave_config`, `generate_column_names`,
  `WaveConfigParser._load_wave_definitions`, `add_wave_definition`.
* `wave_visualizer/visualization_techs/alluvial_builder.py` —
  `_process_transition_data`, `_calculate_statistics`.
* `wave_visualizer/data_prep/cleaning/row_reduction.py` —
  `RowReductionHandler.apply_filters`.

Python `dict`s keyed by wave number are modelled as association lists with
insert-or-overwrite semantics; pandas dataframes as a list of column names plus a
list of rows, where a cell is `Option V` (`none` = NaN/missing); Python `float`
arithmetic is modelled exactly over `ℚ`; raised exceptions are modelled with
`Except` whose error type distinguishes the distinct `raise` sites.
-/

namespace WaveVisualizer

/-! ### Wave registry (`wave_parser.py`)

`WaveConfigParser.wave_numbers` is a Python dict `{wave_number: (wave_name, column_pfx)}`.
It is modelled as an association list; `dictInsert` reproduces dict assignment
(overwrite in place if the key exists, append otherwise, preserving insertion order).
-/

deriving instance DecidableEq for Except

abbrev Registry := List (Nat × String × String)

def dictKeys (reg : Registry) : List Nat := reg.map (·.1)

/-- Model of `self.wave_numbers[n]`: the first entry with key `n`
(unique in any registry built by `dictInsert`).  The lookup in the source is
only ever performed on keys known to be present, so the default is unreachable. -/
def waveLookup (reg : Registry) (n : Nat) : String × String :=
  ((reg.find? (fun e => e.1 == n)).map (·.2)).getD ("", "")

def dictInsert (reg : Registry) (k : Nat) (v : String × String) : Registry :=
  if reg.any (fun e => e.1 == k) then
    reg.map (fun e => if e.1 == k then (k, v) else e)
  else
    reg ++ [(k, v)]

/-- Model of Python `str.lower()` (ASCII, which is all the parser compares). -/
def lowerStr (s : String) : String := ⟨s.data.map Char.toLower⟩

/-- Model of Python `str.strip()`. -/
def trimStr (s : String) : String :=
  ⟨((s.data.dropWhile Char.isWhitespace).reverse.dropWhile Char.isWhitespace).reverse⟩

def digitsToNat (ds : List Char) : Nat :=
  ds.foldl (fun n c => n * 10 + (c.toNat - 48)) 0

/-- Model of `re.compile(r'^w(\d+)_to_w(\d+)$', re.IGNORECASE).match`:
returns the two captured integers when the (case-folded) string has exactly the
shape `w<digits>_to_w<digits>`. -/
def matchWavePattern (s : String) : Option (Nat × Nat) :=
  match (lowerStr s).data with
  | 'w' :: rest =>
    let ds1 := rest.takeWhile Char.isDigit
    let rest1 := rest.dropWhile Char.isDigit
    if ds1.isEmpty then none else
    match rest1 with
    | '_' :: 't' :: 'o' :: '_' :: 'w' :: rest2 =>
      let ds2 := rest2.takeWhile Char.isDigit
      let rest3 := rest2.dropWhile Char.isDigit
      if ds2.isEmpty then none
      else if rest3.isEmpty then some (digitsToNat ds1, digitsToNat ds2)
      else none
    | _ => none
  | _ => none

/-- Model of `sorted(self.wave_numbers.keys())`. -/
def sortNat (l : List Nat) : List Nat := List.insertionSort (· ≤ ·) l

/-- The distinct `raise ValueError(...)` sites of `parse_wave_config` (all raise
`ValueError` in the source; the constructors record which message was built). -/
inductive ParseError where
  | nonPositiveWave (cfg : String)
  | sameSourceTarget (cfg : String)
  | waveNotFound (n : Nat) (available : List Nat)
  | invalidFormat (cfg : String) (available : List Nat)
  deriving DecidableEq

/-- Embedding of `WaveConfigParser.parse_wave_config` (wave_parser.py:100-165).
`all_waves` is checked first on the lower-cased token; with at least two
registered waves it returns the prefixes of the first and last wave of
`sorted(self.wave_numbers.keys())`, otherwise it silently falls back to
`('W1_', 'W3_')`.  Any other token is matched (after `strip()`) against
`^w(\d+)_to_w(\d+)$`. -/
def parse_wave_config (reg : Registry) (wave_config : String) :
    Except ParseError (String × String) :=
  if lowerStr wave_config = "all_waves" then
    if 2 ≤ (sortNat (dictKeys reg)).length then
      .ok ((waveLookup reg ((sortNat (dictKeys reg)).head?.getD 0)).2,
           (waveLookup reg ((sortNat (dictKeys reg)).getLast?.getD 0)).2)
    else
      .ok ("W1_", "W3_")
  else
    match matchWavePattern (trimStr wave_config) with
    | some nm =>
      if nm.1 < 1 ∨ nm.2 < 1 then .error (.nonPositiveWave wave_config)
      else if nm.1 = nm.2 then .error (.sameSourceTarget wave_config)
      else if nm.1 ∉ dictKeys reg then .error (.waveNotFound nm.1 (dictKeys reg))
      else if nm.2 ∉ dictKeys reg then .error (.waveNotFound nm.2 (dictKeys reg))
      else .ok ((waveLookup reg nm.1).2, (waveLookup reg nm.2).2)
    | none => .error (.invalidFormat wave_config (dictKeys reg))

/-- Embedding of `WaveConfigParser.validate_wave_config` (wave_parser.py:188-202):
`try: parse; return True; except ValueError: return False`. -/
def validate_wave_config (reg : Registry) (wave_config : String) : Bool :=
  match parse_wave_config reg wave_config with
  | .ok _ => true
  | .error _ => false

/-- Embedding of `WaveConfigParser.generate_column_names` (wave_parser.py:167-186). -/
def generate_column_names (sourceWavePre targetWavePre variable_name : String) :
    String × String :=
  (sourceWavePre ++ variable_name, targetWavePre ++ variable_name)

/-- One row of the persisted `wave_definitions.csv` table. -/
structure WaveRow where
  wave_name : String
  column_pfx : String
  deriving DecidableEq

/-- Model of `re.search(r'(\d+)', wave_name)`: the first run of digits. -/
def extractWaveNum (s : String) : Option Nat :=
  let ds := (s.data.dropWhile (fun c => !c.isDigit)).takeWhile Char.isDigit
  if ds.isEmpty then none else some (digitsToNat ds)

/-- The loop body of `_load_wave_definitions` (wave_parser.py:69-79): rows are
processed in file order, a row enters `wave_numbers` only when its name contains
digits, and a later row with the same number overwrites the earlier one. -/
def loadRegistry (rows : List WaveRow) : Registry :=
  rows.foldl
    (fun reg row =>
      match extractWaveNum row.wave_name with
      | some n => dictInsert reg n (row.wave_name, row.column_pfx)
      | none => reg)
    []

/-- The hard-coded default seed used when `wave_definitions.csv` is absent
(wave_parser.py:53-57). -/
def defaultRegistry : Registry :=
  [(1, ("Wave1", "W1_")), (2, ("Wave2", "W2_")), (3, ("Wave3", "W3_"))]

/-- The rows whose load reproduces `defaultRegistry`. -/
def defaultRows : List WaveRow :=
  [⟨"Wave1", "W1_"⟩, ⟨"Wave2", "W2_"⟩, ⟨"Wave3", "W3_"⟩]

/-- State of the persisted definitions file: `none` = the CSV does not exist. -/
def loadDefinitions : Option (List WaveRow) → Registry
  | none => defaultRegistry
  | some rows => loadRegistry rows

/-- Embedding of `add_wave_definition` (wave_parser.py:269-311): read the CSV if
it exists (otherwise start from an EMPTY table — the in-memory default seed is
not persisted), append the new row, write the file back and drop the cached
parser so the next resolution reloads. -/
def addWaveDefinition (fileRows : Option (List WaveRow)) (wave_name column_pfx : String) :
    Option (List WaveRow) :=
  some ((fileRows.getD []) ++ [⟨wave_name, column_pfx⟩])

/-! ### Transition aggregation (`alluvial_builder.py`)

`_process_transition_data` operates on the two selected columns of the dataframe:
a list of `(Option V × Option V)` pairs, one per row. -/

abbrev PairedData (V : Type) := List (Option V × Option V)

/-- Model of `.dropna()` on the two selected columns: keep exactly the rows with
both values present. -/
def dropna {V : Type} (rows : PairedData V) : List (V × V) :=
  rows.filterMap (fun r =>
    match r with
    | (some a, some b) => some (a, b)
    | _ => none)

/-- Lexicographic order on group keys: pandas `groupby([s, t], sort=True)` lists
the groups sorted by the `(source, target)` key. -/
def pairLe {V : Type} [LinearOrder V] (a b : V × V) : Prop :=
  a.1 < b.1 ∨ (a.1 = b.1 ∧ a.2 ≤ b.2)

instance pairLeDecRel {V : Type} [LinearOrder V] : DecidableRel (pairLe (V := V)) :=
  fun a b => by unfold pairLe; infer_instance

def sortPairs {V : Type} [LinearOrder V] (l : List (V × V)) : List (V × V) :=
  List.insertionSort pairLe l

/-- Model of `.groupby([source_column, target_column]).size()`: the distinct keys
in key-sorted order, each with its number of occurrences. -/
def groupCounts {V : Type} [LinearOrder V] [DecidableEq V] (rows : List (V × V)) :
    List ((V × V) × Nat) :=
  (sortPairs rows.dedup).map (fun k => (k, rows.countP (fun r => decide (r = k))))

/-- One row of the `transition_counts` dataframe after the `percentage` column is
added (columns `source`, `target`, `count`, `percentage`). -/
structure TransitionRecord (V : Type) where
  source : V
  target : V
  count : Nat
  percentage : ℚ
  deriving DecidableEq

/-- Model of `total_transitions = transition_counts['count'].sum()` followed by
`transition_counts['percentage'] = (count / total_transitions) * 100`. -/
def addPercentage {V : Type} (crs : List ((V × V) × Nat)) : List (TransitionRecord V) :=
  crs.map (fun e =>
    ⟨e.1.1, e.1.2, e.2, ((e.2 : ℚ) / (((crs.map (·.2)).sum : Nat) : ℚ)) * 100⟩)

def countLe {V : Type} (a b : TransitionRecord V) : Prop := a.count ≤ b.count

instance countLeDecRel {V : Type} : DecidableRel (countLe (V := V)) :=
  fun a b => by unfold countLe; infer_instance

instance countLeTotal {V : Type} : IsTotal (TransitionRecord V) countLe :=
  ⟨fun a b => Nat.le_total a.count b.count⟩

instance countLeTrans {V : Type} : IsTrans (TransitionRecord V) countLe :=
  ⟨fun _ _ _ h1 h2 => Nat.le_trans h1 h2⟩

/-- Model of `transition_counts.sort_values('count', ascending=False)`: pandas
argsorts the column ascending (numpy's sort, which is stable on the small arrays
at issue) and then REVERSES the indexer for `ascending=False`, so tied rows come
out in reverse of their previous order. -/
def sortByCountDesc {V : Type} (recs : List (TransitionRecord V)) :
    List (TransitionRecord V) :=
  (List.insertionSort countLe recs).reverse

/-- Embedding of `_process_transition_data` (alluvial_builder.py:252-281) applied
to the two selected columns. -/
def aggregate {V : Type} [LinearOrder V] [DecidableEq V] (data : PairedData V) :
    List (TransitionRecord V) :=
  sortByCountDesc (addPercentage (groupCounts (dropna data)))

/-- The summary dictionary built by `_calculate_statistics` (the echoed
`variable_analyzed`/`wave_transition` inputs are omitted). -/
structure Statistics (V : Type) where
  total_transitions : Nat
  unique_patterns : Nat
  stability_rate : ℚ
  top_patterns : List (TransitionRecord V)
  deriving DecidableEq

/-- Embedding of `_calculate_statistics` (alluvial_builder.py:401-428): note the
explicit `if total_transitions > 0 else 0` guard on the stability rate and the
hard-coded `head(10)` for `top_patterns`. -/
def calculateStatistics {V : Type} [DecidableEq V] (recs : List (TransitionRecord V)) :
    Statistics V :=
  { total_transitions := (recs.map (·.count)).sum
    unique_patterns := recs.length
    stability_rate :=
      if 0 < (recs.map (·.count)).sum then
        ((((recs.filter (fun r => r.source == r.target)).map (·.count)).sum : Nat) : ℚ) /
            (((recs.map (·.count)).sum : Nat) : ℚ) * 100
      else 0
    top_patterns := recs.take 10 }

/-! ### Dataframe model (column selection `self._data[[source_column, target_column]]`) -/

structure DataFrame (V : Type) where
  cols : List String
  rows : List (List (Option V))
  deriving DecidableEq

def colIndex {V : Type} (df : DataFrame V) (c : String) : Option Nat :=
  df.cols.indexOf? c

def cellAt {V : Type} (row : List (Option V)) (i : Option Nat) : Option V :=
  match i with
  | some j => row.getD j none
  | none => none

/-- Selection of the source/target columns: one `(Option V × Option V)` pair per
dataframe row. -/
def selectPair {V : Type} (df : DataFrame V) (s t : String) : PairedData V :=
  df.rows.map (fun row => (cellAt row (colIndex df s), cellAt row (colIndex df t)))

/-- The number of rows in which both columns are non-missing. -/
def completeCaseCount {V : Type} (df : DataFrame V) (s t : String) : Nat :=
  (df.rows.filter (fun row =>
    (cellAt row (colIndex df s)).isSome && (cellAt row (colIndex df t)).isSome)).length

/-! ### Row filtering (`row_reduction.py`, `RowReductionHandler.apply_filters`) -/

structure RowFilter (V : Type) where
  column : String
  values : List V
  deriving DecidableEq

/-- One iteration of the filter loop (row_reduction.py:309-321): a filter whose
column is absent is SKIPPED (`logger.warning(...); continue`), otherwise the rows
whose cell value is a member of `values` are kept (`.isin(values)`; a missing
cell is never in `values`). -/
def filterStep {V : Type} [DecidableEq V] (df : DataFrame V) (f : RowFilter V) :
    DataFrame V :=
  if f.column ∈ df.cols then
    { df with
      rows := df.rows.filter (fun row =>
        match cellAt row (colIndex df f.column) with
        | some v => v ∈ f.values
        | none => false) }
  else df

def filtersFold {V : Type} [DecidableEq V] (df : DataFrame V) (fs : List (RowFilter V)) :
    DataFrame V :=
  fs.foldl filterStep df

/-- The exceptions `apply_filters` can raise after the loop: the removal-rate
division `removed_count / original_count` raises `ZeroDivisionError` when the
input had no rows, and `raise ValueError("Filtering removed all data rows")`
fires when every row was filtered out. -/
inductive FilterError where
  | zeroDivision
  | allRowsFiltered
  deriving DecidableEq

/-- Embedding of `RowReductionHandler.apply_filters` (row_reduction.py:289-338):
no filters → the data is returned unchanged; otherwise the filters are folded
over the data, then the removal rate is computed (division by the original row
count) and an empty result raises. -/
def apply_filters {V : Type} [DecidableEq V] (df : DataFrame V)
    (fs : List (RowFilter V)) : Except FilterError (DataFrame V) :=
  if fs = [] then .ok df
  else if df.rows.length = 0 then .error .zeroDivision
  else if (filtersFold df fs).rows.length = 0 then .error .allRowsFiltered
  else .ok (filtersFold df fs)


/-! ## Helper lemmas for the wave parser -/

lemma sortNat_perm (l : List Nat) : (sortNat l).Perm l := List.perm_insertionSort _ l

lemma sortNat_sorted (l : List Nat) : (sortNat l).Sorted (· ≤ ·) :=
  List.sorted_insertionSort _ l

lemma headD_of_sorted_min {A : List Nat} {m : Nat}
    (hs : A.Sorted (· ≤ ·)) (hm : m ∈ A) (hb : ∀ x ∈ A, m ≤ x) :
    A.head?.getD 0 = m := by
  cases A with
  | nil => cases hm
  | cons a t =>
    have hma : m ≤ a := hb a (List.mem_cons_self a t)
    rcases List.mem_cons.mp hm with h | h
    · simp [h]
    · have : a ≤ m := (List.sorted_cons.mp hs).1 m h
      simp [Nat.le_antisymm this hma]

lemma getLastD_of_sorted_max : ∀ (A : List Nat) (M : Nat), A.Sorted (· ≤ ·) → M ∈ A →
    (∀ x ∈ A, x ≤ M) → A.getLast?.getD 0 = M := by
  intro A
  induction A with
  | nil => intro M _ hM _; cases hM
  | cons a t ih =>
    intro M hs hM hb
    cases t with
    | nil =>
      rcases List.mem_cons.mp hM with h | h
      · simp [h]
      · cases h
    | cons b t2 =>
      rw [List.getLast?_cons_cons]
      have hMbt : M ∈ b :: t2 := by
        rcases List.mem_cons.mp hM with h | h
        · have hab : a ≤ b := (List.sorted_cons.mp hs).1 b (List.mem_cons_self b t2)
          have hbM : b ≤ M := hb b (List.mem_cons_of_mem a (List.mem_cons_self b t2))
          have : b = M := Nat.le_antisymm hbM (h ▸ hab)
          exact this ▸ List.mem_cons_self b t2
        · exact h
      exact ih M (List.sorted_cons.mp hs).2 hMbt
        (fun x hx => hb x (List.mem_cons_of_mem a hx))

lemma find?_append_of_some {α : Type} {p : α → Bool} {l l' : List α} {a : α}
    (h : l.find? p = some a) : (l ++ l').find? p = some a := by
  induction l with
  | nil => simp at h
  | cons x t ih =>
    rw [List.cons_append]
    cases hx : p x with
    | true =>
      rw [List.find?_cons_of_pos _ hx] at h
      rw [List.find?_cons_of_pos _ hx]
      exact h
    | false =>
      rw [List.find?_cons_of_neg _ (by rw [hx]; exact Bool.false_ne_true)] at h
      rw [List.find?_cons_of_neg _ (by rw [hx]; exact Bool.false_ne_true)]
      exact ih h

lemma find?_append_of_none {α : Type} {p : α → Bool} {l l' : List α}
    (h : l.find? p = none) : (l ++ l').find? p = l'.find? p := by
  induction l with
  | nil => simp
  | cons x t ih =>
    rw [List.cons_append]
    cases hx : p x with
    | true => rw [List.find?_cons_of_pos _ hx] at h; cases h
    | false =>
      rw [List.find?_cons_of_neg _ (by rw [hx]; exact Bool.false_ne_true)] at h
      rw [List.find?_cons_of_neg _ (by rw [hx]; exact Bool.false_ne_true)]
      exact ih h

/-- With at least two registered waves, resolving `all_waves` returns the column
prefixes of the minimum- and maximum-numbered registered waves. -/
lemma parse_all_waves_eq (reg : Registry) (m M : Nat)
    (hm : m ∈ dictKeys reg) (hM : M ∈ dictKeys reg)
    (hb : ∀ k ∈ dictKeys reg, m ≤ k ∧ k ≤ M)
    (hlen : 2 ≤ (dictKeys reg).length) :
    parse_wave_config reg "all_waves" =
      .ok ((waveLookup reg m).2, (waveLookup reg M).2) := by
  have hperm := sortNat_perm (dictKeys reg)
  have hlen2 : 2 ≤ (sortNat (dictKeys reg)).length := by
    rw [hperm.length_eq]; exact hlen
  have hhead : (sortNat (dictKeys reg)).head?.getD 0 = m :=
    headD_of_sorted_min (sortNat_sorted _) (hperm.mem_iff.mpr hm)
      (fun x hx => (hb x (hperm.subset hx)).1)
  have hlast : (sortNat (dictKeys reg)).getLast?.getD 0 = M :=
    getLastD_of_sorted_max _ _ (sortNat_sorted _) (hperm.mem_iff.mpr hM)
      (fun x hx => (hb x (hperm.subset hx)).2)
  unfold parse_wave_config
  rw [if_pos (show lowerStr "all_waves" = "all_waves" from rfl), if_pos hlen2,
    hhead, hlast]

/-! ## C4 -/

/-- C4, counterexample to the claim as stated: starting from the default registry
(waves 1-3, the maximum wave 3 carrying column pfx `"W3_"`), registering a NEW
wave 4 whose column pfx is also `"W3_"` leaves the result of a subsequent
`all_waves` resolution unchanged, so "registering a new wave with a larger number
changes the result of a subsequent resolution" fails at this input. -/
theorem C4_counterexample :
    parse_wave_config defaultRegistry "all_waves" = .ok ("W1_", "W3_") ∧
    dictInsert defaultRegistry 4 ("Wave4", "W3_") =
      defaultRegistry ++ [(4, ("Wave4", "W3_"))] ∧
    parse_wave_config (dictInsert defaultRegistry 4 ("Wave4", "W3_")) "all_waves" =
      .ok ("W1_", "W3_") :=
  ⟨by decide, by decide, by decide⟩

/-- C4, amended: with at least two registered waves, resolving `all_waves`
returns the prefixes of the minimum- and maximum-numbered registered waves, and
registering a new wave with a larger number AND a column pfx different from the
current maximum wave's pfx changes the result of a subsequent resolution (which
then pairs the minimum wave's pfx with the new wave's pfx). -/
theorem C4_all_waves_min_max (reg : Registry) (m M n : Nat) (wname p : String)
    (hm : m ∈ dictKeys reg) (hM : M ∈ dictKeys reg)
    (hb : ∀ k ∈ dictKeys reg, m ≤ k ∧ k ≤ M)
    (hlen : 2 ≤ (dictKeys reg).length)
    (hn : M < n) (hp : p ≠ (waveLookup reg M).2) :
    parse_wave_config reg "all_waves" =
      .ok ((waveLookup reg m).2, (waveLookup reg M).2) ∧
    parse_wave_config (dictInsert reg n (wname, p)) "all_waves" =
      .ok ((waveLookup reg m).2, p) ∧
    parse_wave_config (dictInsert reg n (wname, p)) "all_waves" ≠
      parse_wave_config reg "all_waves" := by
  have h1 := parse_all_waves_eq reg m M hm hM hb hlen
  have hnotin : ∀ e ∈ reg, (e.1 == n) = false := by
    intro e he
    have hmem : e.1 ∈ dictKeys reg := List.mem_map_of_mem _ he
    have := (hb _ hmem).2
    simp only [beq_eq_false_iff_ne, ne_eq]
    omega
  have hany : ¬ (reg.any (fun e => e.1 == n) = true) := by
    intro hc
    rcases List.any_eq_true.mp hc with ⟨e, he, hbe⟩
    rw [hnotin e he] at hbe
    cases hbe
  have hins : dictInsert reg n (wname, p) = reg ++ [(n, (wname, p))] := by
    unfold dictInsert
    rw [if_neg hany]
  have hkeys : dictKeys (reg ++ [(n, (wname, p))]) = dictKeys reg ++ [n] := by
    simp [dictKeys]
  have hlookm : waveLookup (reg ++ [(n, (wname, p))]) m = waveLookup reg m := by
    unfold waveLookup
    obtain ⟨e, he, he1⟩ := List.mem_map.mp hm
    have hsm : (reg.find? (fun x => x.1 == m)).isSome = true := by
      rw [List.find?_isSome]
      exact ⟨e, he, by rw [he1]; exact beq_self_eq_true m⟩
    obtain ⟨a, ha⟩ := Option.isSome_iff_exists.mp hsm
    rw [ha, find?_append_of_some ha]
  have hlookn : waveLookup (reg ++ [(n, (wname, p))]) n = (wname, p) := by
    unfold waveLookup
    have hnone : reg.find? (fun x => x.1 == n) = none :=
      List.find?_eq_none.mpr (fun x hx => by rw [hnotin x hx]; exact Bool.false_ne_true)
    rw [find?_append_of_none hnone]
    simp [List.find?_cons]
  have h2 : parse_wave_config (reg ++ [(n, (wname, p))]) "all_waves" =
      .ok ((waveLookup reg m).2, p) := by
    have hm2 : m ∈ dictKeys (reg ++ [(n, (wname, p))]) := by
      rw [hkeys]; exact List.mem_append_left _ hm
    have hM2 : n ∈ dictKeys (reg ++ [(n, (wname, p))]) := by
      rw [hkeys]; exact List.mem_append_right _ (List.mem_singleton.mpr rfl)
    have hb2 : ∀ k ∈ dictKeys (reg ++ [(n, (wname, p))]), m ≤ k ∧ k ≤ n := by
      intro k hk
      rw [hkeys] at hk
      rcases List.mem_append.mp hk with h | h
      · exact ⟨(hb k h).1, Nat.le_trans (hb k h).2 (Nat.le_of_lt hn)⟩
      · rw [List.mem_singleton.mp h]
        exact ⟨Nat.le_trans (hb m hm).2 (Nat.le_of_lt hn), Nat.le_refl n⟩
    have hlen2 : 2 ≤ (dictKeys (reg ++ [(n, (wname, p))])).length := by
      rw [hkeys, List.length_append]
      omega
    rw [parse_all_waves_eq _ m n hm2 hM2 hb2 hlen2, hlookm, hlookn]
  refine ⟨h1, by rw [hins]; exact h2, ?_⟩
  rw [hins, h2, h1]
  intro hc
  rw [Except.ok.injEq, Prod.mk.injEq] at hc
  exact hp hc.2

/-- Witness for C4_all_waves_min_max at the default registry, adding wave 4 with
pfx `"W4_"`. -/
theorem C4_all_waves_min_max_witness :
    (1 ∈ dictKeys defaultRegistry) ∧ (3 ∈ dictKeys defaultRegistry) ∧
    (∀ k ∈ dictKeys defaultRegistry, 1 ≤ k ∧ k ≤ 3) ∧
    2 ≤ (dictKeys defaultRegistry).length ∧ (3 : Nat) < 4 ∧
    "W4_" ≠ (waveLookup defaultRegistry 3).2 ∧
    (parse_wave_config defaultRegistry "all_waves" =
        .ok ((waveLookup defaultRegistry 1).2, (waveLookup defaultRegistry 3).2) ∧
      parse_wave_config (dictInsert defaultRegistry 4 ("Wave4", "W4_")) "all_waves" =
        .ok ((waveLookup defaultRegistry 1).2, "W4_") ∧
      parse_wave_config (dictInsert defaultRegistry 4 ("Wave4", "W4_")) "all_waves" ≠
        parse_wave_config defaultRegistry "all_waves") :=
  ⟨by decide, by decide, by decide, by decide, by decide, by decide,
    C4_all_waves_min_max defaultRegistry 1 3 4 "Wave4" "W4_" (by decide) (by decide)
      (by decide) (by decide) (by decide) (by decide)⟩

/-! ## C5 -/

/-- C5, counterexample to the claim as stated: with a single registered wave,
resolving `all_waves` does NOT fail — it silently returns the hardcoded default
pair `("W1_", "W3_")`. -/
theorem C5_counterexample :
    (dictKeys [(1, ("Wave1", "W1_"))]).length = 1 ∧
    parse_wave_config [(1, ("Wave1", "W1_"))] "all_waves" = .ok ("W1_", "W3_") :=
  ⟨by decide, by decide⟩

/-- C5, amended: whenever fewer than two waves are registered, resolving
`all_waves` silently substitutes the hardcoded default pair `("W1_", "W3_")`
instead of failing. -/
theorem C5_fallback (reg : Registry) (h : (dictKeys reg).length < 2) :
    parse_wave_config reg "all_waves" = .ok ("W1_", "W3_") := by
  unfold parse_wave_config
  rw [if_pos (show lowerStr "all_waves" = "all_waves" from rfl), if_neg]
  rw [(sortNat_perm (dictKeys reg)).length_eq]
  omega

/-- Witness for C5_fallback at a one-wave registry. -/
theorem C5_fallback_witness :
    (dictKeys [(1, ("Wave1", "W1_"))]).length < 2 ∧
    parse_wave_config [(1, ("Wave1", "W1_"))] "all_waves" = .ok ("W1_", "W3_") :=
  ⟨by decide, C5_fallback [(1, ("Wave1", "W1_"))] (by decide)⟩

/-! ## C6 -/

/-- C6, counterexample to the claim as stated: when the registry containing
exactly waves {1,2,3} is the in-memory default seed (no persisted CSV), the
add-wave operation writes a CSV containing ONLY `Wave4`, so the reload sees only
wave 4 and the immediately following resolution of `w1_to_w4` fails with
"Wave 1 not found" instead of returning `("W1_", "W4_")`. -/
theorem C6_counterexample :
    dictKeys (loadDefinitions none) = [1, 2, 3] ∧
    parse_wave_config (loadDefinitions (addWaveDefinition none "Wave4" "W4_"))
        "w1_to_w4" = .error (.waveNotFound 1 [4]) :=
  ⟨by decide, by decide⟩

/-- C6, amended: starting from a PERSISTED definitions file whose load yields
exactly the registry {1: W1_, 2: W2_, 3: W3_}, registering wave 4 with pfx
`"W4_"` and then resolving `w1_to_w4` succeeds and returns `("W1_", "W4_")`:
the addition is observed by the immediately following resolution. -/
theorem C6_add_wave_then_resolve (rows : List WaveRow)
    (h : loadRegistry rows = defaultRegistry) :
    parse_wave_config (loadDefinitions (addWaveDefinition (some rows) "Wave4" "W4_"))
        "w1_to_w4" = .ok ("W1_", "W4_") := by
  simp only [loadDefinitions, addWaveDefinition, Option.getD_some]
  unfold loadRegistry
  rw [List.foldl_append]
  unfold loadRegistry at h
  rw [h]
  decide

/-- Witness for C6_add_wave_then_resolve at the persisted default rows. -/
theorem C6_add_wave_then_resolve_witness :
    loadRegistry defaultRows = defaultRegistry ∧
    parse_wave_config (loadDefinitions (addWaveDefinition (some defaultRows) "Wave4" "W4_"))
        "w1_to_w4" = .ok ("W1_", "W4_") :=
  ⟨by decide, C6_add_wave_then_resolve defaultRows (by decide)⟩

/-! ## C10 -/

/-- C10: for every registry and token, `validate_wave_config` returns `true`
exactly when `parse_wave_config` returns a pfx pair, and `false` exactly when
`parse_wave_config` raises (models `except ValueError: return False`); being a
total function, it never raises. -/
theorem C10_validate_iff (reg : Registry) (wave_config : String) :
    (validate_wave_config reg wave_config = true ↔
      ∃ pr, parse_wave_config reg wave_config = .ok pr) ∧
    (validate_wave_config reg wave_config = false ↔
      ∃ e, parse_wave_config reg wave_config = .error e) := by
  unfold validate_wave_config
  cases h : parse_wave_config reg wave_config <;> simp [h]



/-! ## Helper lemmas for the transition aggregation -/

lemma sum_map_div_mul (l : List Nat) (T : ℚ) :
    (l.map (fun (c : Nat) => ((c : ℚ) / T) * 100)).sum = ((l.sum : ℚ) / T) * 100 := by
  induction l with
  | nil => simp
  | cons a t ih =>
    rw [List.map_cons, List.sum_cons, List.sum_cons, ih, Nat.cast_add, add_div, add_mul]

lemma aggregate_perm {V : Type} [LinearOrder V] [DecidableEq V] (d : PairedData V) :
    (aggregate d).Perm (addPercentage (groupCounts (dropna d))) := by
  unfold aggregate sortByCountDesc
  exact (List.reverse_perm _).trans (List.perm_insertionSort _ _)

lemma addPercentage_map_count {V : Type} (crs : List ((V × V) × Nat)) :
    (addPercentage crs).map (·.count) = crs.map (·.2) := by
  unfold addPercentage
  rw [List.map_map]
  rfl

lemma groupCounts_counts_sum {V : Type} [LinearOrder V] [DecidableEq V]
    (rows : List (V × V)) : ((groupCounts rows).map (·.2)).sum = rows.length := by
  unfold groupCounts
  rw [List.map_map]
  show ((sortPairs rows.dedup).map
      (fun k => rows.countP (fun r => decide (r = k)))).sum = rows.length
  have hp : (sortPairs rows.dedup).Perm rows.dedup := List.perm_insertionSort _ _
  rw [(hp.map (fun k => rows.countP (fun r => decide (r = k)))).sum_eq]
  exact List.sum_map_count_dedup_eq_length rows

lemma counts_sum_eq {V : Type} [LinearOrder V] [DecidableEq V] (d : PairedData V) :
    ((aggregate d).map (·.count)).sum = (dropna d).length := by
  rw [((aggregate_perm d).map (·.count)).sum_eq, addPercentage_map_count,
    groupCounts_counts_sum]

lemma length_filterMap_eq {α β : Type} (l : List α) (h : α → Option β) :
    (l.filterMap h).length = (l.filter (fun x => (h x).isSome)).length := by
  induction l with
  | nil => rfl
  | cons x t ih =>
    cases hx : h x with
    | none => simp [List.filterMap_cons, List.filter_cons, hx, ih]
    | some b => simp [List.filterMap_cons, List.filter_cons, hx, ih]

/-! ## C1 -/

/-- C1: for every dataframe and every source/target column pair present in it,
the transition records emitted by `_process_transition_data` have counts that sum
to exactly the number of rows in which both columns are non-missing. -/
theorem C1_conservation {V : Type} [LinearOrder V] [DecidableEq V]
    (df : DataFrame V) (s t : String) (_hs : s ∈ df.cols) (_ht : t ∈ df.cols) :
    ((aggregate (selectPair df s t)).map (·.count)).sum = completeCaseCount df s t := by
  rw [counts_sum_eq]
  unfold dropna selectPair completeCaseCount
  rw [List.filterMap_map, length_filterMap_eq]
  congr 1
  apply List.filter_congr
  intro row _
  cases h1 : cellAt row (colIndex df s) <;> cases h2 : cellAt row (colIndex df t) <;>
    simp [Function.comp, h1, h2]

/-- Witness for C1_conservation at a concrete 3-row dataframe (one row with a
missing target value). -/
theorem C1_conservation_witness :
    (("W1_P" : String) ∈ (["W1_P", "W2_P"] : List String)) ∧
    (("W2_P" : String) ∈ (["W1_P", "W2_P"] : List String)) ∧
    ((aggregate (selectPair (⟨["W1_P", "W2_P"],
          [[some 0, some 0], [some 0, none], [some 1, some 0]]⟩ : DataFrame Nat)
        "W1_P" "W2_P")).map (·.count)).sum =
      completeCaseCount (⟨["W1_P", "W2_P"],
          [[some 0, some 0], [some 0, none], [some 1, some 0]]⟩ : DataFrame Nat)
        "W1_P" "W2_P" :=
  ⟨by decide, by decide, C1_conservation _ "W1_P" "W2_P" (by decide) (by decide)⟩

/-! ## C2 -/

/-- C2: for every aggregation with at least one complete-case row, each
transition record's percentage equals `100 * count / total_transitions` where
`total_transitions` is the number of complete-case rows (not the original row
count), and the percentages sum to exactly 100 (float arithmetic modelled in ℚ). -/
theorem C2_percentages {V : Type} [LinearOrder V] [DecidableEq V] (d : PairedData V)
    (h : 0 < (dropna d).length) :
    (∀ r ∈ aggregate d,
      r.percentage = 100 * (r.count : ℚ) / ((dropna d).length : ℚ)) ∧
    ((aggregate d).map (·.percentage)).sum = 100 := by
  have htot : ((groupCounts (dropna d)).map (·.2)).sum = (dropna d).length :=
    groupCounts_counts_sum _
  have hne : ((dropna d).length : ℚ) ≠ 0 := by
    rw [ne_eq, Nat.cast_eq_zero]
    omega
  constructor
  · intro r hr
    have hr2 : r ∈ addPercentage (groupCounts (dropna d)) :=
      ((aggregate_perm d).mem_iff).mp hr
    obtain ⟨e, he, rfl⟩ := List.mem_map.mp hr2
    show ((e.2 : ℚ) / ((((groupCounts (dropna d)).map (·.2)).sum : Nat) : ℚ)) * 100 =
      100 * ((e.2 : Nat) : ℚ) / ((dropna d).length : ℚ)
    rw [htot]
    ring
  · rw [((aggregate_perm d).map (·.percentage)).sum_eq]
    unfold addPercentage
    rw [List.map_map]
    show ((groupCounts (dropna d)).map ((fun (c : Nat) =>
        ((c : ℚ) / ((((groupCounts (dropna d)).map (·.2)).sum : Nat) : ℚ)) * 100) ∘
        (·.2))).sum = 100
    rw [← List.map_map, sum_map_div_mul, htot]
    rw [div_self hne, one_mul]

/-- Witness for C2_percentages at a concrete input with 3 rows, 2 of them
complete cases (so the denominator is 2, not 3). -/
theorem C2_percentages_witness :
    0 < (dropna ([(some 0, some 0), (some 0, some 1), (none, some 0)] :
      PairedData Nat)).length ∧
    ((∀ r ∈ aggregate ([(some 0, some 0), (some 0, some 1), (none, some 0)] :
        PairedData Nat),
      r.percentage = 100 * (r.count : ℚ) /
        ((dropna ([(some 0, some 0), (some 0, some 1), (none, some 0)] :
          PairedData Nat)).length : ℚ)) ∧
    ((aggregate ([(some 0, some 0), (some 0, some 1), (none, some 0)] :
      PairedData Nat)).map (·.percentage)).sum = 100) :=
  ⟨by decide, C2_percentages _ (by decide)⟩

/-! ## C3 -/

/-- C3, counterexample to the claim as stated: on an input with rows but zero
complete cases, the aggregation does NOT fail — it returns an empty record list
and `_calculate_statistics` returns all-zero statistics (the explicit
`if total_transitions > 0 else 0` guard), with no error raised. -/
theorem C3_counterexample :
    ([(some 0, none), (none, some 1)] : PairedData Nat).length = 2 ∧
    dropna ([(some 0, none), (none, some 1)] : PairedData Nat) = [] ∧
    aggregate ([(some 0, none), (none, some 1)] : PairedData Nat) = [] ∧
    calculateStatistics (aggregate ([(some 0, none), (none, some 1)] :
      PairedData Nat)) = ⟨0, 0, 0, []⟩ :=
  ⟨by decide, by decide, by decide, by decide⟩

/-- C3, amended: on every input with zero complete-case rows the aggregator
returns successfully with an empty record list and zero statistics
(`total_transitions = 0`, `unique_patterns = 0`, `stability_rate = 0`, empty
`top_patterns`); no error is raised (the pattern-analysis variant instead
divides by the zero count, yielding NaN percentages, likewise without failing). -/
theorem C3_zero_complete_case_stats {V : Type} [LinearOrder V] [DecidableEq V]
    (d : PairedData V) (h : dropna d = []) :
    aggregate d = [] ∧ calculateStatistics (aggregate d) = ⟨0, 0, 0, []⟩ := by
  have hagg : aggregate d = [] := by
    unfold aggregate sortByCountDesc addPercentage groupCounts sortPairs
    rw [h]
    rfl
  exact ⟨hagg, by rw [hagg]; rfl⟩

/-- Witness for C3_zero_complete_case_stats at a 2-row input with no complete
case. -/
theorem C3_zero_complete_case_stats_witness :
    dropna ([(some 0, none), (none, some 1)] : PairedData Nat) = [] ∧
    (aggregate ([(some 0, none), (none, some 1)] : PairedData Nat) = [] ∧
      calculateStatistics (aggregate ([(some 0, none), (none, some 1)] :
        PairedData Nat)) = ⟨0, 0, 0, []⟩) :=
  ⟨by decide, C3_zero_complete_case_stats _ (by decide)⟩

/-! ## C7 -/

/-- C7, counterexample to the claim as stated: two tied transition patterns come
out of the grouping operation in key order `(0,0), (1,1)` but appear in the
final record list in the REVERSE order `(1,1), (0,0)` — tied records do not
retain the grouping order, because `sort_values(ascending=False)` reverses the
ascending argsort. -/
theorem C7_counterexample :
    (groupCounts (dropna ([(some 0, some 0), (some 1, some 1)] :
      PairedData Nat))).map (·.1) = [(0, 0), (1, 1)] ∧
    (groupCounts (dropna ([(some 0, some 0), (some 1, some 1)] :
      PairedData Nat))).map (·.2) = [1, 1] ∧
    ((aggregate ([(some 0, some 0), (some 1, some 1)] : PairedData Nat)).map
      (fun r => (r.source, r.target, r.count))) = [(1, 1, 1), (0, 0, 1)] :=
  ⟨by decide, by decide, by decide⟩

/-- C7, amended: the returned records are sorted descending by count and
`top_patterns` is exactly the first 10 records of that sorted sequence, but tied
records appear in the REVERSE of the order produced by the grouping operation
(the implementation stably sorts ascending and reverses); in particular when all
counts are tied the output is exactly the reversed grouping sequence. -/
theorem C7_sorted_desc_top_patterns {V : Type} [LinearOrder V] [DecidableEq V]
    (d : PairedData V) :
    List.Sorted (fun a b : TransitionRecord V => b.count ≤ a.count) (aggregate d) ∧
    (calculateStatistics (aggregate d)).top_patterns ++ (aggregate d).drop 10 =
      aggregate d ∧
    ((∀ a ∈ addPercentage (groupCounts (dropna d)),
      ∀ b ∈ addPercentage (groupCounts (dropna d)), a.count = b.count) →
      aggregate d = (addPercentage (groupCounts (dropna d))).reverse) := by
  refine ⟨?_, ?_, ?_⟩
  · show List.Pairwise _ _
    unfold aggregate sortByCountDesc
    rw [List.pairwise_reverse]
    exact List.sorted_insertionSort countLe _
  · show (aggregate d).take 10 ++ (aggregate d).drop 10 = aggregate d
    exact List.take_append_drop 10 _
  · intro hall
    have hsorted : List.Sorted countLe (addPercentage (groupCounts (dropna d))) :=
      List.pairwise_of_forall_mem_list
        (fun a ha b hb => Nat.le_of_eq (hall a ha b hb))
    unfold aggregate sortByCountDesc
    rw [hsorted.insertionSort_eq]

/-- Witness for C7_sorted_desc_top_patterns at the concrete tied input of the
counterexample, with the all-tied premise discharged. -/
theorem C7_sorted_desc_top_patterns_witness :
    List.Sorted (fun a b : TransitionRecord Nat => b.count ≤ a.count)
      (aggregate ([(some 0, some 0), (some 1, some 1)] : PairedData Nat)) ∧
    (calculateStatistics (aggregate ([(some 0, some 0), (some 1, some 1)] :
        PairedData Nat))).top_patterns ++
      (aggregate ([(some 0, some 0), (some 1, some 1)] : PairedData Nat)).drop 10 =
      aggregate ([(some 0, some 0), (some 1, some 1)] : PairedData Nat) ∧
    aggregate ([(some 0, some 0), (some 1, some 1)] : PairedData Nat) =
      (addPercentage (groupCounts (dropna ([(some 0, some 0), (some 1, some 1)] :
        PairedData Nat)))).reverse :=
  ⟨(C7_sorted_desc_top_patterns _).1, (C7_sorted_desc_top_patterns _).2.1,
    (C7_sorted_desc_top_patterns _).2.2 (by decide)⟩

/-! ## C8 -/

/-- C8, counterexample to the claim as stated: a filter naming a column absent
from the dataset does NOT fail — `apply_filters` skips it with a warning and
returns the data unchanged. -/
theorem C8_counterexample :
    (("B" : String) ∉ (⟨["A"], [[some 0]]⟩ : DataFrame Nat).cols) ∧
    apply_filters (⟨["A"], [[some 0]]⟩ : DataFrame Nat) [⟨"B", [0]⟩] =
      .ok (⟨["A"], [[some 0]]⟩ : DataFrame Nat) :=
  ⟨by decide, by decide⟩

/-- C8, amended: a filter whose named column is not present in the dataset is
skipped (`logger.warning(...); continue`) rather than raising: alone on a
non-empty dataset it returns the data unchanged, and among other filters the
result is as if the filter had not been specified. -/
theorem C8_skip_missing_column {V : Type} [DecidableEq V] :
    (∀ (df : DataFrame V) (f : RowFilter V), f.column ∉ df.cols → df.rows ≠ [] →
      apply_filters df [f] = .ok df) ∧
    (∀ (df : DataFrame V) (f : RowFilter V) (fs : List (RowFilter V)),
      f.column ∉ df.cols → fs ≠ [] →
      apply_filters df (f :: fs) = apply_filters df fs) := by
  have hstep : ∀ (df : DataFrame V) (f : RowFilter V), f.column ∉ df.cols →
      filterStep df f = df := by
    intro df f hf
    unfold filterStep
    rw [if_neg hf]
  constructor
  · intro df f hf hr
    have hfold : filtersFold df [f] = df := by
      unfold filtersFold
      rw [List.foldl_cons, hstep df f hf]
      rfl
    unfold apply_filters
    rw [if_neg (List.cons_ne_nil f []), hfold,
      if_neg (fun hc => hr (List.length_eq_zero.mp hc)),
      if_neg (fun hc => hr (List.length_eq_zero.mp hc))]
  · intro df f fs hf hne
    have hfold : filtersFold df (f :: fs) = filtersFold df fs := by
      unfold filtersFold
      rw [List.foldl_cons, hstep df f hf]
    unfold apply_filters
    rw [if_neg (List.cons_ne_nil f fs), if_neg hne, hfold]

/-- Witness for C8_skip_missing_column: both conjuncts applied at a concrete
one-column dataframe and a filter naming the absent column "B". -/
theorem C8_skip_missing_column_witness :
    (("B" : String) ∉ (⟨["A"], [[some 0]]⟩ : DataFrame Nat).cols) ∧
    ((⟨["A"], [[some 0]]⟩ : DataFrame Nat).rows ≠ []) ∧
    apply_filters (⟨["A"], [[some 0]]⟩ : DataFrame Nat) [⟨"B", [0]⟩] =
      .ok (⟨["A"], [[some 0]]⟩ : DataFrame Nat) ∧
    (([⟨"A", [0]⟩] : List (RowFilter Nat)) ≠ []) ∧
    apply_filters (⟨["A"], [[some 0]]⟩ : DataFrame Nat) [⟨"B", [0]⟩, ⟨"A", [0]⟩] =
      apply_filters (⟨["A"], [[some 0]]⟩ : DataFrame Nat) [⟨"A", [0]⟩] :=
  ⟨by decide, by decide,
    (C8_skip_missing_column (V := Nat)).1 _ _ (by decide) (by decide),
    by decide,
    (C8_skip_missing_column (V := Nat)).2 _ _ _ (by decide) (by decide)⟩

/-! ## C9 -/

/-- C9: whenever a non-empty filter list leaves zero rows, `apply_filters`
raises (either the `ValueError("Filtering removed all data rows")` or, for an
initially empty dataset, the removal-rate `ZeroDivisionError`) rather than
silently returning an empty dataset. -/
theorem C9_empty_result_error {V : Type} [DecidableEq V] (df : DataFrame V)
    (fs : List (RowFilter V)) (h1 : fs ≠ []) (h2 : (filtersFold df fs).rows = []) :
    ∃ e, apply_filters df fs = .error e := by
  unfold apply_filters
  rw [if_neg h1]
  by_cases hd : df.rows.length = 0
  · exact ⟨.zeroDivision, by rw [if_pos hd]⟩
  · refine ⟨.allRowsFiltered, ?_⟩
    rw [if_neg hd, if_pos (by rw [h2]; rfl)]

/-- Witness for C9_empty_result_error: filtering a 1-row dataset to a value held
by no row. -/
theorem C9_empty_result_error_witness :
    (([⟨"A", [1]⟩] : List (RowFilter Nat)) ≠ []) ∧
    (filtersFold (⟨["A"], [[some 0]]⟩ : DataFrame Nat) [⟨"A", [1]⟩]).rows = [] ∧
    ∃ e, apply_filters (⟨["A"], [[some 0]]⟩ : DataFrame Nat) [⟨"A", [1]⟩] =
      .error e :=
  ⟨by decide, by decide, C9_empty_result_error _ _ (by decide) (by decide)⟩


end WaveVisualizer
